import Mathlib

/-!
Verification of the CuraEngine path-planning core against its specification.

This file gives a shallow embedding, in Lean 4, of the parts of the code that
the specification claims talk about:

* `WallToolPaths` (generate / getToolPaths / computeInnerContour /
  stitchContours / removeEmptyToolPaths) from `WallToolPaths.cpp`;
* `ExtruderPlan::applyBackPressureCompensation` from `ExtruderPlan.cpp`;
* `ExtrusionMove::write` from `ExtrusionMove.cpp`;
* `PrintOperationSequence::setOperations` from `PrintOperationSequence.h`;
* the `smooth_fn` sliding-window smoothing action from `utils/views/smooth.h`.

Geometry primitives (Clipper offsets, polygon union, the skeletal
trapezoidation and the beading strategies) are external collaborators of the
core; they enter the embedding as explicit function parameters (`WallEnv`),
so theorems about the control flow of `generate` hold for every behaviour of
those collaborators.  Machine integers (`coord_t`) are modelled as `ℤ`,
floating-point doubles as `ℚ` where the code only does field arithmetic and
comparisons, and as `ℝ` where the code computes square roots and arc-cosines
(the smoothing action).
-/

namespace CuraSpec

/-- A 2-D point in integer micrometers, as CuraEngine's `Point` (`coord_t` pair). -/
abbrev Pt := ℤ × ℤ

/-- An `ExtrusionJunction`: a point plus a width `w` in micrometers. -/
structure Junction where
  p : Pt
  w : ℤ
  deriving DecidableEq, Repr

instance : Inhabited Junction := ⟨⟨(0, 0), 0⟩⟩

/-- An `ExtrusionLine` is modelled by its ordered list of junctions. -/
abbrev ELine := List Junction

/-- `VariableWidthLines`: the set of extrusion lines of one inset level. -/
abbrev VWLines := List ELine

/-- `VariableWidthPaths`: a sequence of per-inset groupings. -/
abbrev VWPaths := List VWLines

/-- A polygon is an ordered list of points, implicitly closed. -/
abbrev Polygon := List Pt

/-- A `Polygons` / `Shape`: a set of polygons under the even-odd rule. -/
abbrev Polygons := List Polygon

/-! ## The partition lambda of `WallToolPaths::computeInnerContour`

The C++ lambda (WallToolPaths.cpp, partition_copy call):
iterate the lines of a `VariableWidthLines` group, and inside each line iterate
its junctions; on the first junction encountered return `junction.w != 0`;
if no junction exists at all, return `true` (classify as a tool path). -/

/-- The classification lambda used by `std::partition_copy` inside
`WallToolPaths::computeInnerContour`: `true` means the group is an actual
tool path, `false` means it is a contour path. -/
def classifyGroup : VWLines → Bool
  | [] => true
  | line :: rest =>
    match line with
    | [] => classifyGroup rest
    | j :: _ => decide (j.w ≠ 0)

/-- The first junction encountered in a group of lines, skipping over empty
lines: the head of the concatenation of all junction lists. -/
def firstJunction (path : VWLines) : Option Junction :=
  path.flatten.head?

/-! ## `WallToolPaths::stitchContours`

The C++ stitcher walks all input polylines in order, and for every line not
yet processed opens a new output polygon, appends the line's junction points,
and repeatedly chains to the nearest unprocessed line whose start or end lies
within `stitch_distance` of `nearest->junctions.back().p` (searching start
points first, then end points, keeping a candidate only on a *strict*
improvement of the squared distance).  A line reached through its end point is
appended in reverse.  The spatial lookup (`SparsePointGrid::getNearby`) is not
part of the sources; modelled from the spec: it returns the polylines whose
relevant endpoint lies within `stitch_distance` of the query position, in
input order. -/

/-- Squared distance between two points (`vSize2(a - b)` in the code). -/
def dist2 (a b : Pt) : ℤ :=
  (a.1 - b.1) * (a.1 - b.1) + (a.2 - b.2) * (a.2 - b.2)

/-- The start point of a line: `line->junctions.front().p`. -/
def startPt (line : ELine) : Pt :=
  line.headI.p

/-- The end point of a line: `line->junctions.back().p`. -/
def endPt (line : ELine) : Pt :=
  (line.getLastD default).p

/-- The candidate list the selection loops of `stitchContours` run over:
unprocessed lines whose start point is within `stitch_distance` of the current
position (in input order), followed by unprocessed lines whose end point is
(also in input order).  Each candidate carries its index, whether it must be
reversed (end-point match), and its squared distance. -/
def nearestCandidates (lines : List ELine) (processed : List ℕ) (pos : Pt)
    (stitch_distance : ℤ) : List (ℕ × Bool × ℤ) :=
  ((List.range lines.length).filterMap fun i =>
    if i ∉ processed ∧ dist2 (startPt (lines.getD i [])) pos ≤ stitch_distance * stitch_distance
    then some (i, false, dist2 (startPt (lines.getD i [])) pos)
    else none)
  ++ ((List.range lines.length).filterMap fun i =>
    if i ∉ processed ∧ dist2 (endPt (lines.getD i [])) pos ≤ stitch_distance * stitch_distance
    then some (i, true, dist2 (endPt (lines.getD i [])) pos)
    else none)

/-- The strict-improvement minimum scan of the two selection loops: starting
from `nearest = nullptr`, replace the best candidate only when the squared
distance strictly decreases (so the first encountered candidate wins ties). -/
def pickNearest (cands : List (ℕ × Bool × ℤ)) : Option (ℕ × Bool × ℤ) :=
  cands.foldl
    (fun best c =>
      match best with
      | none => some c
      | some b => if c.2.2 < b.2.2 then some c else some b)
    none

/-- One chaining step: the nearest unprocessed line (with its reversal flag)
attachable at `pos`, or `none` when no candidate is in range. -/
def selectNearest (lines : List ELine) (processed : List ℕ) (pos : Pt)
    (stitch_distance : ℤ) : Option (ℕ × Bool) :=
  (pickNearest (nearestCandidates lines processed pos stitch_distance)).map
    (fun c => (c.1, c.2.1))

/-- The points contributed by line `i` of the input, forward or reversed. -/
def pointsOfLine (lines : List ELine) (i : ℕ) (rev : Bool) : List Pt :=
  let pts := (lines.getD i []).map Junction.p
  if rev then pts.reverse else pts

/-- The inner `while(nearest)` loop of `stitchContours`: starting from line
`i` (with reversal flag `rev`), append the line, mark it processed, and chain
to the nearest attachable line; the chase position is always
`nearest->junctions.back().p` — the back of the original line, even when the
line was appended in reverse.  Structural recursion on a fuel argument;
`stitchChains` passes `lines.length`, which bounds every chain since each step
marks one more line processed. -/
def buildChain (lines : List ELine) (stitch_distance : ℤ) :
    ℕ → List ℕ → ℕ → Bool → List (ℕ × Bool) × List ℕ
  | 0, processed, i, rev => ([(i, rev)], i :: processed)
  | fuel + 1, processed, i, rev =>
    match selectNearest lines (i :: processed) (endPt (lines.getD i [])) stitch_distance with
    | none => ([(i, rev)], i :: processed)
    | some (j, r) =>
      ((i, rev) :: (buildChain lines stitch_distance fuel (i :: processed) j r).1,
        (buildChain lines stitch_distance fuel (i :: processed) j r).2)

/-- The outer loop of `stitchContours`: iterate the lines in input order,
skip the ones already processed, and open a new chain (a new output polygon)
for each seed. -/
def stitchChainsGo (lines : List ELine) (stitch_distance : ℤ) :
    List ℕ → List ℕ → List (List (ℕ × Bool))
  | [], _ => []
  | i :: rest, processed =>
    if i ∈ processed then stitchChainsGo lines stitch_distance rest processed
    else
      let c := buildChain lines stitch_distance lines.length processed i false
      c.1 :: stitchChainsGo lines stitch_distance rest c.2

/-- The chains (as lists of (line index, reversed) pairs, one chain per output
polygon) built by `WallToolPaths::stitchContours` on the flattened input. -/
def stitchChains (lines : List ELine) (stitch_distance : ℤ) : List (List (ℕ × Bool)) :=
  stitchChainsGo lines stitch_distance (List.range lines.length) []

/-- `WallToolPaths::stitchContours`: the output polygons, each the
concatenation of the junction points of the lines of one chain. -/
def stitchContours (input : VWPaths) (stitch_distance : ℤ) : Polygons :=
  (stitchChains input.flatten stitch_distance).map
    (fun chain => (chain.map (fun c => pointsOfLine input.flatten c.1 c.2)).flatten)

/-- The claim's per-polygon property: no point occurs at two positions of an
output polygon, except for the pair of the first and the last position (where
the loop closes). -/
def noRepeatExceptClose (poly : Polygon) : Prop :=
  ∀ i j : Fin poly.length, i < j → poly.get i = poly.get j →
    (i.val = 0 ∧ j.val = poly.length - 1)

instance (poly : Polygon) : Decidable (noRepeatExceptClose poly) := by
  unfold noRepeatExceptClose
  infer_instance

/-! ## `WallToolPaths` state and `generate`

The outline-preparation pipeline (`offset`, `simplify`,
`fixSelfIntersections`, `removeDegenerateVerts`, `removeColinearEdges`,
`removeSmallAreas`), the polygon `area`, the beading strategy plus skeletal
trapezoidation (`SkeletalTrapezoidation::generateToolpaths`) and the even-odd
`unionPolygons` are external collaborators of `WallToolPaths.cpp`; they enter
the embedding as the fields of a `WallEnv`, so the theorems about the control
flow of `generate` hold for every behaviour of those collaborators. -/

/-- The external collaborators used by `WallToolPaths::generate`.
`generateToolpaths` receives the prepared outline, `max_bead_count` and the
current `toolpaths` buffer (the member is passed by reference to
`SkeletalTrapezoidation::generateToolpaths`) and returns the buffer's new
contents. -/
structure WallEnv where
  prepare : Polygons → Polygons
  area : Polygons → ℚ
  generateToolpaths : Polygons → ℕ → VWPaths → VWPaths
  evenOddUnion : Polygons → Polygons

/-- The mutable state of a `WallToolPaths` object. -/
structure WallToolPaths where
  outline : Polygons
  bead_width_0 : ℤ
  inset_count : ℕ
  toolpaths : VWPaths
  inner_contour : Polygons
  toolpaths_generated : Bool
  deriving DecidableEq

/-- The `WallToolPaths` constructor: stores the outline, widths and inset
count; `toolpaths` and `inner_contour` start empty and
`toolpaths_generated` starts `false`. -/
def WallToolPaths.init (outline : Polygons) (bead_width_0 : ℤ) (inset_count : ℕ) :
    WallToolPaths where
  outline := outline
  bead_width_0 := bead_width_0
  inset_count := inset_count
  toolpaths := []
  inner_contour := []
  toolpaths_generated := false

/-- `WallToolPaths::removeEmptyToolPaths`: erase the `VariableWidthLines`
entries that contain no lines. -/
def removeEmptyToolPaths (toolpaths : VWPaths) : VWPaths :=
  toolpaths.filter (fun lines => ! lines.isEmpty)

/-- `WallToolPaths::computeInnerContour`.  Its prologue reserves the two
output vectors: `actual_toolpaths.reserve(toolpaths.size())` and
`contour_paths.reserve(toolpaths.size() / inset_count)` — the latter an
unsigned division that is undefined behaviour (a SIGFPE crash in practice)
exactly when `inset_count == 0`; the crash is modelled as `none`.  Otherwise:
partition the tool paths with the `classifyGroup` lambda
(`std::partition_copy` keeps the relative order on both sides), stitch the
contour side with `stitch_distance = bead_width_0 / 2`, and normalize the
stitched result with an even-odd union against the empty set.  Returns
(actual tool paths, contour paths, inner contour). -/
def computeInnerContour (env : WallEnv) (bead_width_0 : ℤ) (inset_count : ℕ)
    (toolpaths : VWPaths) : Option (VWPaths × VWPaths × Polygons) :=
  if inset_count = 0 then
    none
  else
    some (toolpaths.filter (fun path => classifyGroup path),
      toolpaths.filter (fun path => ! classifyGroup path),
      env.evenOddUnion (stitchContours
        (toolpaths.filter (fun path => ! classifyGroup path)) (bead_width_0.tdiv 2)))

/-- `WallToolPaths::generate`, instrumented: returns the new object state,
whether the strategy construction / skeletal trapezoidation block ran (the
`prepared_outline.area() > 0` branch), and the contour paths that were split
off by `computeInnerContour` (empty when the block was skipped); `none` when
`computeInnerContour` crashed (its division by zero at `inset_count = 0`).
`removeEmptyToolPaths` runs in both branches, and `toolpaths_generated`
becomes `true` in both. -/
def generateResult (env : WallEnv) (w : WallToolPaths) :
    Option (WallToolPaths × Bool × VWPaths) :=
  if 0 < env.area (env.prepare w.outline) then
    (computeInnerContour env w.bead_width_0 w.inset_count
      (env.generateToolpaths (env.prepare w.outline) (2 * w.inset_count)
        w.toolpaths)).map
      (fun ci =>
        ({ w with
            toolpaths := removeEmptyToolPaths ci.1,
            inner_contour := ci.2.2,
            toolpaths_generated := true },
          true, ci.2.1))
  else
    some ({ w with
        toolpaths := removeEmptyToolPaths w.toolpaths,
        toolpaths_generated := true },
      false, [])

/-- `WallToolPaths::generate`: the new state and whether the strategy /
trapezoidation block ran, or `none` when the call crashes in
`computeInnerContour`. -/
def generate (env : WallEnv) (w : WallToolPaths) : Option (WallToolPaths × Bool) :=
  (generateResult env w).map (fun r => (r.1, r.2.1))

/-- `WallToolPaths::getToolPaths`: generate on first use, then return the
stored tool paths.  The third component records whether this call invoked
`generate`; the result is `none` when that invocation crashed. -/
def getToolPaths (env : WallEnv) (w : WallToolPaths) :
    Option (VWPaths × WallToolPaths × Bool) :=
  if w.toolpaths_generated = false then
    (generate env w).map (fun g => (g.1.toolpaths, g.1, true))
  else
    some (w.toolpaths, w, false)

/-- `WallToolPaths::getInnerContour`: generate on first use when
`inset_count > 0`; with `inset_count == 0` return the original outline
without calling `generate`; otherwise return the stored inner contour. -/
def getInnerContour (env : WallEnv) (w : WallToolPaths) :
    Option (Polygons × WallToolPaths) :=
  if w.toolpaths_generated = false ∧ 0 < w.inset_count then
    (generate env w).map (fun g => (g.1.inner_contour, g.1))
  else if w.inset_count = 0 then
    some (w.outline, w)
  else
    some (w.inner_contour, w)

/-! ## `ExtruderPlan::applyBackPressureCompensation` -/

/-- The fields of a `GCodePath` that `applyBackPressureCompensation` reads or
writes.  `nominal_width` is `path.config.getLineWidth()` (a `coord_t`, read as
a double by the function), `width_factor` and `speed_back_pressure_factor` are
the double-valued ratios carried on the path, and the two Booleans are
`path.config.isTravelPath()` / `path.config.isBridgePath()`. -/
structure GCodePath where
  nominal_width : ℚ
  width_factor : ℚ
  is_travel : Bool
  is_bridge : Bool
  speed_back_pressure_factor : ℚ
  deriving DecidableEq, Repr

/-- The guard under which `applyBackPressureCompensation` skips a path
(`continue` in the loop body). -/
def bpSkipped (path : GCodePath) : Bool :=
  decide (path.width_factor ≤ 0) || decide (path.nominal_width ≤ 0) || path.is_travel || path.is_bridge

/-- `ExtruderPlan::applyBackPressureCompensation`: for every path that is not
skipped, set `speed_back_pressure_factor` to
`max(epsilon_speed_factor, 1 + (nominal_width / line_width_for_path - 1) * r)`
with `epsilon_speed_factor = 0.001` and
`line_width_for_path = width_factor * nominal_width`. -/
def applyBackPressureCompensation (back_pressure_compensation : ℚ)
    (paths : List GCodePath) : List GCodePath :=
  paths.map fun path =>
    if bpSkipped path then
      path
    else
      { path with
        speed_back_pressure_factor :=
          max (1 / 1000)
            (1 + (path.nominal_width / (path.width_factor * path.nominal_width) - 1)
              * back_pressure_compensation) }

/-! ## `PrintOperationSequence::setOperations`

Operations are identified by numeric ids; the parent back-references of all
operations form one map `ℕ → Option ℕ` (an id whose parent pointer is unset
maps to `none`).  `setOperations` first clears the parent of every old child
that is absent from the new list, then sets the parent of every new child that
was not already a child, and finally replaces the children list by the new
list element for element. -/

/-- `PrintOperationSequence::setOperations` of `PrintOperationSequence.h`,
acting on a sequence `self`, its current children `ops`, the new children list
`newOps` and the global parent-pointer map. Returns the new children list and
the new parent map. -/
def setOperations (self : ℕ) (ops newOps : List ℕ) (parent : ℕ → Option ℕ) :
    List ℕ × (ℕ → Option ℕ) :=
  let parent1 := ops.foldl
    (fun f removed_operation =>
      if removed_operation ∈ newOps then f
      else Function.update f removed_operation none)
    parent
  let parent2 := newOps.foldl
    (fun f added_operation =>
      if added_operation ∈ ops then f
      else Function.update f added_operation (some self))
    parent1
  (newOps, parent2)

/-! ## `ExtrusionMove::write`

`getAbsolutePosition` resolves the move's position through the parent chain
(code outside these sources); it enters as the `absolute_position` parameter.
`z` is `getPosition().z_`, the move's stored z coordinate. -/

/-- The data of a `FeatureExtrusion` read by `ExtrusionMove::write`. -/
structure FeatureExtrusionData where
  speed : ℚ
  speed_factor : ℚ
  speed_back_pressure_factor : ℚ
  extrusion_mm3_per_mm : ℚ
  flow : ℚ
  width_factor : ℚ
  config_line_width : ℤ
  flow_ratio : ℚ
  layer_thickness : ℤ
  z_offset : ℤ
  feature_type : ℕ
  deriving DecidableEq, Repr

/-- `std::llrint`: round to the nearest integer (exact-half ties modelled as
rounding up; the claims do not depend on the tie direction). -/
def llrint (q : ℚ) : ℤ :=
  round q

/-- `FeatureExtrusion::getLineWidth`:
`llrint(flow * width_factor * config.getLineWidth() * config.getFlowRatio())`. -/
def FeatureExtrusionData.getLineWidth (f : FeatureExtrusionData) : ℤ :=
  llrint (f.flow * f.width_factor * (f.config_line_width : ℚ) * f.flow_ratio)

/-- The containing move set seen by `ExtrusionMove::write`: either it
dynamically casts to a `FeatureExtrusion`, or it does not. -/
inductive ExtruderMoveSet where
  | featureExtrusion (f : FeatureExtrusionData)
  | otherMoveSet
  deriving DecidableEq

/-- Whether the dynamic cast to `FeatureExtrusion` succeeds. -/
def ExtruderMoveSet.isFeatureExtrusion : ExtruderMoveSet → Bool
  | .featureExtrusion _ => true
  | .otherMoveSet => false

/-- A call made on the `PathExporter` sink. -/
inductive ExporterCall where
  | writeExtrusionCall (p : ℤ × ℤ × ℤ) (speed : ℚ) (extrusion_mm3_per_mm : ℚ)
      (line_width : ℤ) (line_thickness : ℤ) (feature : ℕ) (update_extrusion_offset : Bool)
  | writeTravelMoveCall (p : ℤ × ℤ × ℤ) (speed : ℚ) (feature : ℕ)
  deriving DecidableEq

/-- Whether an exporter call is a `writeExtrusion`. -/
def ExporterCall.isWriteExtrusion : ExporterCall → Bool
  | .writeExtrusionCall _ _ _ _ _ _ _ => true
  | .writeTravelMoveCall _ _ _ => false

/-- `ExtrusionMove::write`: when the containing move set is not a
`FeatureExtrusion`, log a warning and return without calling the exporter;
otherwise derive velocity, line width and thickness from the feature and make
exactly one `writeExtrusion` call.  Returns the exporter calls made and the
warnings logged. -/
def ExtrusionMove.write (absolute_position : ℤ × ℤ × ℤ) (z : ℤ)
    (line_width_ratio : ℚ) (extruder_move_set : ExtruderMoveSet) :
    List ExporterCall × List String :=
  match extruder_move_set with
  | .otherMoveSet =>
    ([], ["Unable to export extrusion move because it is not part of a FeatureExtrusion"])
  | .featureExtrusion f =>
    ([ExporterCall.writeExtrusionCall absolute_position
        (f.speed * f.speed_factor * f.speed_back_pressure_factor)
        f.extrusion_mm3_per_mm
        (llrint ((f.getLineWidth : ℚ) * line_width_ratio))
        (f.layer_thickness + f.z_offset + z)
        f.feature_type false], [])

/-! ## The smoothing action `cura::actions::smooth_fn`

The body of the sliding-window loop of `smooth_fn::operator()` (the action
taken on one window `(A, B, C, D)`), together with its helpers
`computeMagnitudes` (via `ptMag`), `cosAngle`, `shiftPointTowards` and
`isWithinAllowedDeviations`.  The C++ computes with doubles (`std::hypot`,
`std::acos`); the embedding idealizes them as exact real arithmetic.  `size`
is `ranges::distance(rng) - 1` (closed paths) and `removed` is
`to_remove.size()` at the time the window is processed. -/

end CuraSpec

namespace CuraSpec

/-! ## Theorems for claim C3 -/

theorem classifyGroup_cons_empty (rest : VWLines) :
    classifyGroup ([] :: rest) = classifyGroup rest := by
  simp [classifyGroup]

/-- C3: When partitioning the emitted VariableWidthPaths, a per-inset group is
classified as an actual tool path exactly when the first junction encountered
in it (skipping empty lines) has `w ≠ 0`, and as a contour path when that
junction has `w = 0`; a group containing no junctions at all is classified as
a tool path. -/
theorem classifyGroup_eq_firstJunction (path : VWLines) :
    classifyGroup path =
      match firstJunction path with
      | none => true
      | some j => decide (j.w ≠ 0) := by
  induction path with
  | nil => simp [classifyGroup, firstJunction]
  | cons line rest ih =>
    cases line with
    | nil =>
      rw [classifyGroup_cons_empty, ih]
      simp [firstJunction]
    | cons j js =>
      simp [classifyGroup, firstJunction]

/-! ## Theorems for claims C1, C4, C7, C10 -/

/-- A group kept on the tool-path side of a successful `computeInnerContour`
call was classified `true` by the partition lambda, and comes from the input. -/
theorem mem_computeInnerContour_actual (env : WallEnv) (bead_width_0 : ℤ)
    (inset_count : ℕ) (toolpaths : VWPaths) (ci : VWPaths × VWPaths × Polygons)
    (hci : computeInnerContour env bead_width_0 inset_count toolpaths = some ci)
    (group : VWLines) (h : group ∈ ci.1) :
    group ∈ toolpaths ∧ classifyGroup group = true := by
  unfold computeInnerContour at hci
  split at hci
  · cases hci
  · have h2 := Option.some.inj hci
    subst h2
    exact ⟨(List.mem_filter.mp h).1, (List.mem_filter.mp h).2⟩

/-- A group split off on the contour side of a successful `computeInnerContour`
call was classified `false` by the partition lambda, and comes from the input. -/
theorem mem_computeInnerContour_contour (env : WallEnv) (bead_width_0 : ℤ)
    (inset_count : ℕ) (toolpaths : VWPaths) (ci : VWPaths × VWPaths × Polygons)
    (hci : computeInnerContour env bead_width_0 inset_count toolpaths = some ci)
    (group : VWLines) (h : group ∈ ci.2.1) :
    group ∈ toolpaths ∧ classifyGroup group = false := by
  unfold computeInnerContour at hci
  split at hci
  · cases hci
  · have h2 := Option.some.inj hci
    subst h2
    have h3 := List.mem_filter.mp h
    refine ⟨h3.1, ?_⟩
    simpa using h3.2

/-- Membership survives `removeEmptyToolPaths`. -/
theorem mem_removeEmptyToolPaths (toolpaths : VWPaths) (group : VWLines)
    (h : group ∈ removeEmptyToolPaths toolpaths) : group ∈ toolpaths :=
  (List.mem_filter.mp h).1

/-- A group classified as a tool path has a nonzero-width first junction (if
it has any junction at all). -/
theorem classify_true_first (group : VWLines) (h : classifyGroup group = true) :
    ∀ j, firstJunction group = some j → j.w ≠ 0 := by
  intro j hj
  rw [classifyGroup_eq_firstJunction, hj] at h
  simpa using h

/-- A group classified as a contour path has a zero-width first junction. -/
theorem classify_false_first (group : VWLines) (h : classifyGroup group = false) :
    ∀ j, firstJunction group = some j → j.w = 0 := by
  intro j hj
  rw [classifyGroup_eq_firstJunction, hj] at h
  simpa using h

/-- C1 counterexample environment: the (abstract) skeletal trapezoidation
emits one line whose first junction has width 1 and whose second junction has
width 0. -/
def envMixed : WallEnv where
  prepare := id
  area := fun _ => 1
  generateToolpaths := fun _ _ _ => [[[⟨(0, 0), 1⟩, ⟨(1, 0), 0⟩]]]
  evenOddUnion := id

/-- C1 counterexample: the partition in `computeInnerContour` looks only at
the first junction of a group, so a line whose widths mix `1` and `0` stays in
`toolpaths` after `generate()` while containing a junction with `w = 0` —
refuting "every junction of every extrusion line remaining in toolpaths has
width w > 0". -/
theorem generate_mixed_width_counterexample :
    (generate envMixed (WallToolPaths.init [[(0, 0)]] 400 1)).map
        (fun res => res.1.toolpaths) = some [[[⟨(0, 0), 1⟩, ⟨(1, 0), 0⟩]]]
    ∧ ¬ (∀ group ∈ ([[[⟨(0, 0), 1⟩, ⟨(1, 0), 0⟩]]] : VWPaths),
          ∀ line ∈ group, ∀ j ∈ line, 0 < j.w) := by
  constructor
  · decide
  · decide

/-- The two completion shapes of `generateResult`: either the trapezoidation
block ran and `computeInnerContour` succeeded, or the block was skipped. -/
theorem generateResult_some_cases (env : WallEnv) (w : WallToolPaths)
    (res : WallToolPaths × Bool × VWPaths)
    (h : generateResult env w = some res) :
    (∃ ci, computeInnerContour env w.bead_width_0 w.inset_count
        (env.generateToolpaths (env.prepare w.outline) (2 * w.inset_count)
          w.toolpaths) = some ci
      ∧ res = ({ w with
            toolpaths := removeEmptyToolPaths ci.1,
            inner_contour := ci.2.2,
            toolpaths_generated := true }, true, ci.2.1))
    ∨ res = ({ w with
        toolpaths := removeEmptyToolPaths w.toolpaths,
        toolpaths_generated := true }, false, []) := by
  unfold generateResult at h
  split at h
  · obtain ⟨ci, hci, hf⟩ := Option.map_eq_some'.mp h
    exact Or.inl ⟨ci, hci, hf.symm⟩
  · exact Or.inr (Option.some.inj h).symm

/-- C1 amended: after a completing `generate()` on a fresh `WallToolPaths`,
for every behaviour of the external preparation / trapezoidation / union
collaborators, every group remaining in `toolpaths` has a first junction with
`w ≠ 0` (when it has junctions at all), and every group split off as a
contour path has a first junction with `w = 0`; the classification constrains
only that first junction. -/
theorem generate_first_junction_partition (env : WallEnv) (outline : Polygons)
    (bead_width_0 : ℤ) (inset_count : ℕ) :
    (∀ res, generate env (WallToolPaths.init outline bead_width_0 inset_count)
        = some res →
      ∀ group ∈ res.1.toolpaths, ∀ j, firstJunction group = some j → j.w ≠ 0)
    ∧ (∀ res, generateResult env (WallToolPaths.init outline bead_width_0 inset_count)
        = some res →
      ∀ group ∈ res.2.2, ∀ j, firstJunction group = some j → j.w = 0) := by
  constructor
  · intro res hres group hg
    obtain ⟨r, hr, hf⟩ := Option.map_eq_some'.mp hres
    subst hf
    rcases generateResult_some_cases env _ r hr with ⟨ci, hci, hrEq⟩ | hrEq
    · subst hrEq
      exact classify_true_first group
        (mem_computeInnerContour_actual env _ _ _ ci hci group
          (mem_removeEmptyToolPaths _ group hg)).2
    · subst hrEq
      exact absurd (mem_removeEmptyToolPaths _ group hg) (List.not_mem_nil group)
  · intro res hres group hg
    rcases generateResult_some_cases env _ res hres with ⟨ci, hci, hrEq⟩ | hrEq
    · subst hrEq
      exact classify_false_first group
        (mem_computeInnerContour_contour env _ _ _ ci hci group hg).2
    · subst hrEq
      exact absurd hg (List.not_mem_nil group)

/-- C1/C4/C10 witness environment: degenerate geometry (area always 0). -/
def envZeroArea : WallEnv where
  prepare := id
  area := fun _ => 0
  generateToolpaths := fun _ _ tp => tp
  evenOddUnion := id

/-- C1 witness: the amended partition property at the concrete mixed-width
environment (whose only tool-path group has first junction of width 1). -/
theorem generate_first_junction_partition_witness :
    ([[⟨(0, 0), 1⟩, ⟨(1, 0), 0⟩]] : VWLines)
        ∈ ({ WallToolPaths.init [[(0, 0)]] 400 1 with
            toolpaths := [[[⟨(0, 0), 1⟩, ⟨(1, 0), 0⟩]]],
            toolpaths_generated := true } : WallToolPaths).toolpaths
    ∧ (⟨(0, 0), 1⟩ : Junction).w ≠ 0 :=
  ⟨by decide,
    (generate_first_junction_partition envMixed [[(0, 0)]] 400 1).1
      ({ WallToolPaths.init [[(0, 0)]] 400 1 with
          toolpaths := [[[⟨(0, 0), 1⟩, ⟨(1, 0), 0⟩]]],
          toolpaths_generated := true }, true)
      (by decide) [[⟨(0, 0), 1⟩, ⟨(1, 0), 0⟩]] (by decide) ⟨(0, 0), 1⟩ (by decide)⟩

/-- C4: when the prepared outline has area `≤ 0`, `generate` completes without
failing (it never reaches the division in `computeInnerContour`), skips the
strategy construction / skeletal trapezoidation block, and on a fresh object
produces empty tool paths and an empty inner contour. -/
theorem generate_degenerate_outline (env : WallEnv) (outline : Polygons)
    (bead_width_0 : ℤ) (inset_count : ℕ)
    (h : env.area (env.prepare outline) ≤ 0) :
    generate env (WallToolPaths.init outline bead_width_0 inset_count)
      = some ({ WallToolPaths.init outline bead_width_0 inset_count with
          toolpaths := [], toolpaths_generated := true }, false)
    ∧ ∀ res, generate env (WallToolPaths.init outline bead_width_0 inset_count)
        = some res →
      res.1.toolpaths = [] ∧ res.1.inner_contour = [] ∧ res.2 = false := by
  have heq : generate env (WallToolPaths.init outline bead_width_0 inset_count)
      = some ({ WallToolPaths.init outline bead_width_0 inset_count with
          toolpaths := [], toolpaths_generated := true }, false) := by
    unfold generate generateResult
    split
    · next hpos => exact absurd hpos (not_lt.mpr h)
    · rfl
  refine ⟨heq, ?_⟩
  intro res hres
  rw [heq] at hres
  have h2 := Option.some.inj hres
  subst h2
  exact ⟨rfl, rfl, rfl⟩

/-- C4 witness: a concrete degenerate environment completes with the empty
result and the trapezoidation block skipped. -/
theorem generate_degenerate_outline_witness :
    generate envZeroArea (WallToolPaths.init [[(0, 0)]] 400 2)
      = some ({ WallToolPaths.init [[(0, 0)]] 400 2 with
          toolpaths := [], toolpaths_generated := true }, false) :=
  (generate_degenerate_outline envZeroArea [[(0, 0)]] 400 2 (le_refl 0)).1

/-- Whenever `generate` completes, it has set the `toolpaths_generated` flag. -/
theorem generate_sets_flag (env : WallEnv) (w : WallToolPaths)
    (res : WallToolPaths × Bool) (h : generate env w = some res) :
    res.1.toolpaths_generated = true := by
  obtain ⟨r, hr, hf⟩ := Option.map_eq_some'.mp h
  subst hf
  rcases generateResult_some_cases env w r hr with ⟨ci, _, hrEq⟩ | hrEq <;>
    subst hrEq <;> rfl

/-- C10: `getToolPaths` generates at most once: whenever a call completes, the
returned state has the `toolpaths_generated` flag set, a second call on that
state returns the same stored tool paths and the same state without invoking
`generate` again (so nothing is re-prepared, re-trapezoidated or
re-stitched), and a completed first call on a fresh object (flag unset) did
invoke `generate`. -/
theorem getToolPaths_idempotent (env : WallEnv) (w : WallToolPaths) :
    ∀ p s1 r1, getToolPaths env w = some (p, s1, r1) →
      s1.toolpaths_generated = true
      ∧ getToolPaths env s1 = some (p, s1, false)
      ∧ (w.toolpaths_generated = false → r1 = true) := by
  intro p s1 r1 hcall
  by_cases hg : w.toolpaths_generated = false
  · unfold getToolPaths at hcall
    rw [if_pos hg] at hcall
    obtain ⟨g, hgen, hf⟩ := Option.map_eq_some'.mp hcall
    have hflag : g.1.toolpaths_generated = true := generate_sets_flag env w g hgen
    have hp : p = g.1.toolpaths := (congrArg (fun t => t.1) hf).symm
    have hs : s1 = g.1 := (congrArg (fun t => t.2.1) hf).symm
    have hr1 : r1 = true := (congrArg (fun t => t.2.2) hf).symm
    subst hp
    subst hs
    subst hr1
    refine ⟨hflag, ?_, fun _ => rfl⟩
    unfold getToolPaths
    rw [if_neg (by rw [hflag]; simp)]
  · unfold getToolPaths at hcall
    rw [if_neg hg] at hcall
    have hg' : w.toolpaths_generated = true := by
      revert hg
      cases w.toolpaths_generated <;> simp
    have h2 := Option.some.inj hcall
    have hp : p = w.toolpaths := (congrArg (fun t => t.1) h2).symm
    have hs : s1 = w := (congrArg (fun t => t.2.1) h2).symm
    have hr1 : r1 = false := (congrArg (fun t => t.2.2) h2).symm
    subst hp
    subst hs
    subst hr1
    refine ⟨hg', ?_, fun hcon => absurd hcon hg⟩
    unfold getToolPaths
    rw [if_neg hg]

/-- C10 witness: the second call on the state left by a completed first call
on a fresh degenerate wall object returns the stored (empty) tool paths, the
unchanged state, and does not regenerate. -/
theorem getToolPaths_idempotent_witness :
    getToolPaths envZeroArea ({ WallToolPaths.init [[(0, 0)]] 400 2 with
        toolpaths := [], toolpaths_generated := true })
      = some ([], { WallToolPaths.init [[(0, 0)]] 400 2 with
          toolpaths := [], toolpaths_generated := true }, false) :=
  ((getToolPaths_idempotent envZeroArea (WallToolPaths.init [[(0, 0)]] 400 2))
    [] ({ WallToolPaths.init [[(0, 0)]] 400 2 with
        toolpaths := [], toolpaths_generated := true }) true (by decide)).2.1

/-- C7 (code bug): with `inset_count = 0` and a prepared outline of positive
area, `generate` reaches the unsigned division by zero of
`contour_paths.reserve(toolpaths.size() / inset_count)` inside
`computeInnerContour` and crashes (modelled as `none`) instead of producing
empty tool paths — for every behaviour of the trapezoidation collaborator —
while `getInnerContour`, which never calls `generate` when
`inset_count == 0`, does return the original outline unchanged. -/
theorem generate_zero_inset_crash (env : WallEnv) (outline : Polygons)
    (bead_width_0 : ℤ) (h : 0 < env.area (env.prepare outline)) :
    generate env (WallToolPaths.init outline bead_width_0 0) = none
    ∧ getInnerContour env (WallToolPaths.init outline bead_width_0 0)
        = some (outline, WallToolPaths.init outline bead_width_0 0) := by
  constructor
  · unfold generate generateResult
    split
    · rfl
    · next hneg => exact absurd h hneg
  · unfold getInnerContour
    split
    · next hcond => exact absurd hcond.2 (lt_irrefl 0)
    · split
      · rfl
      · next h2 => exact absurd rfl h2

/-- C7 witness: the crash at a concrete environment whose prepared outline
has positive area. -/
theorem generate_zero_inset_crash_witness :
    generate envMixed (WallToolPaths.init [[(0, 0)]] 400 0) = none
    ∧ getInnerContour envMixed (WallToolPaths.init [[(0, 0)]] 400 0)
        = some ([[(0, 0)]], WallToolPaths.init [[(0, 0)]] 400 0) :=
  generate_zero_inset_crash envMixed [[(0, 0)]] 400 (by decide)

/-! ## Theorems for claim C6 -/

/-- A travel path whose stored back-pressure factor is below the epsilon. -/
def bpTravelPathZero : GCodePath where
  nominal_width := 400
  width_factor := 1
  is_travel := true
  is_bridge := false
  speed_back_pressure_factor := 0

/-- C6 counterexample: `applyBackPressureCompensation` leaves travel paths
untouched, so a travel path whose stored `speed_back_pressure_factor` is `0`
still has factor `0 < 1e-3` afterwards; the unconditional
"for any path, `speed_back_pressure_factor ≥ 1e-3`" part of the claim is
false at the function level. -/
theorem applyBackPressureCompensation_travel_keeps_factor :
    applyBackPressureCompensation 0 [bpTravelPathZero] = [bpTravelPathZero]
    ∧ ¬ ((1 / 1000 : ℚ) ≤ bpTravelPathZero.speed_back_pressure_factor) := by
  constructor
  · simp [applyBackPressureCompensation, bpSkipped, bpTravelPathZero]
  · simp [bpTravelPathZero]

/-- C6 amended: every path that is not skipped (positive width factor,
positive nominal width, not travel, not bridge) gets
`speed_back_pressure_factor = max(1e-3, 1 + (nominal/actual - 1) * r)` with
`actual = width_factor * nominal`, which is always `≥ 1e-3`; a skipped path is
returned unchanged (so it keeps whatever factor it had). -/
theorem applyBackPressureCompensation_spec (r : ℚ) (paths : List GCodePath) (i : ℕ)
    (h : i < paths.length) (h2 : i < (applyBackPressureCompensation r paths).length) :
    (bpSkipped (paths.get ⟨i, h⟩) = false →
      ((applyBackPressureCompensation r paths).get ⟨i, h2⟩).speed_back_pressure_factor =
        max (1 / 1000)
          (1 + ((paths.get ⟨i, h⟩).nominal_width /
            ((paths.get ⟨i, h⟩).width_factor * (paths.get ⟨i, h⟩).nominal_width) - 1) * r)
      ∧ (1 / 1000 : ℚ) ≤
          ((applyBackPressureCompensation r paths).get ⟨i, h2⟩).speed_back_pressure_factor)
    ∧ (bpSkipped (paths.get ⟨i, h⟩) = true →
      (applyBackPressureCompensation r paths).get ⟨i, h2⟩ = paths.get ⟨i, h⟩) := by
  have hget : (applyBackPressureCompensation r paths).get ⟨i, h2⟩ =
      if bpSkipped (paths.get ⟨i, h⟩) then paths.get ⟨i, h⟩
      else
        { paths.get ⟨i, h⟩ with
          speed_back_pressure_factor :=
            max (1 / 1000)
              (1 + ((paths.get ⟨i, h⟩).nominal_width /
                ((paths.get ⟨i, h⟩).width_factor * (paths.get ⟨i, h⟩).nominal_width) - 1) * r) } := by
    simp [applyBackPressureCompensation]
  constructor
  · intro hskip
    rw [hget, if_neg (by rw [hskip]; simp)]
    exact ⟨rfl, le_max_left _ _⟩
  · intro hskip
    rw [hget, if_pos hskip]

/-- C6 witness: a concrete eligible path (`width_factor = 2`) gets a
compensated factor that is at least `1e-3`. -/
theorem applyBackPressureCompensation_spec_witness :
    (1 / 1000 : ℚ) ≤
      ((applyBackPressureCompensation 2
        [⟨400, 2, false, false, 1⟩]).get ⟨0, by decide⟩).speed_back_pressure_factor :=
  ((applyBackPressureCompensation_spec 2 [⟨400, 2, false, false, 1⟩] 0 (by decide)
    (by decide)).1 (by decide)).2

/-! ## Theorems for claim C9 -/

/-- Characterization of the two re-parenting folds in `setOperations`: a fold
that updates `f x := v` for every `x` in `l` that fails the membership guard
`P`. -/
theorem foldl_update_char (l : List ℕ) (P : ℕ → Prop) [DecidablePred P] (v : Option ℕ)
    (parent : ℕ → Option ℕ) (x : ℕ) :
    (l.foldl (fun f a => if P a then f else Function.update f a v) parent) x
      = if x ∈ l ∧ ¬ P x then v else parent x := by
  induction l generalizing parent with
  | nil => simp
  | cons a l ih =>
    rw [List.foldl_cons, ih]
    by_cases hPa : P a
    · rw [if_pos hPa]
      by_cases hc : x ∈ l ∧ ¬ P x
      · rw [if_pos hc, if_pos ⟨List.mem_cons_of_mem a hc.1, hc.2⟩]
      · rw [if_neg hc, if_neg ?hga]
        case hga =>
          rintro ⟨hor, hnP⟩
          rcases List.mem_cons.mp hor with hxa | hxl
          · exact hnP (hxa ▸ hPa)
          · exact hc ⟨hxl, hnP⟩
    · rw [if_neg hPa, Function.update_apply]
      by_cases hxa : x = a
      · subst hxa
        simp [hPa]
      · rw [if_neg hxa]
        by_cases hc : x ∈ l ∧ ¬ P x
        · rw [if_pos hc, if_pos ⟨List.mem_cons_of_mem a hc.1, hc.2⟩]
        · rw [if_neg hc, if_neg ?hgb]
          case hgb =>
            rintro ⟨hor, hnP⟩
            rcases List.mem_cons.mp hor with hxa2 | hxl
            · exact hxa hxa2
            · exact hc ⟨hxl, hnP⟩

/-- C9: `setOperations` re-parents on both sides: every operation in the old
children list that is absent from the new list has its parent back-reference
cleared; every operation in the new list that was not previously a child has
its parent back-reference set to this sequence; and the resulting children
list equals the new list element-for-element. -/
theorem setOperations_spec (self : ℕ) (ops newOps : List ℕ) (parent : ℕ → Option ℕ) :
    (setOperations self ops newOps parent).1 = newOps
    ∧ (∀ x, x ∈ ops → x ∉ newOps → (setOperations self ops newOps parent).2 x = none)
    ∧ (∀ x, x ∈ newOps → x ∉ ops → (setOperations self ops newOps parent).2 x = some self) := by
  refine ⟨rfl, ?_, ?_⟩
  · intro x hx hnx
    show (newOps.foldl _ (ops.foldl _ parent)) x = none
    rw [foldl_update_char newOps (fun a => a ∈ ops) (some self),
      foldl_update_char ops (fun a => a ∈ newOps) none]
    simp [hx, hnx]
  · intro x hx hnx
    show (newOps.foldl _ (ops.foldl _ parent)) x = some self
    rw [foldl_update_char newOps (fun a => a ∈ ops) (some self)]
    simp [hx, hnx]

/-- C9 witness: with children `[1]` replaced by `[2]` under sequence `0`,
operation `1` loses its parent and operation `2` gains parent `0`. -/
theorem setOperations_spec_witness :
    (setOperations 0 [1] [2] (fun _ => some 5)).2 1 = none
    ∧ (setOperations 0 [1] [2] (fun _ => some 5)).2 2 = some 0 :=
  ⟨(setOperations_spec 0 [1] [2] (fun _ => some 5)).2.1 1 (by decide) (by decide),
   (setOperations_spec 0 [1] [2] (fun _ => some 5)).2.2 2 (by decide) (by decide)⟩

/-! ## Theorems for claim C5 -/

/-- The strict-minimum fold of the selection loops only ever returns an
element of its candidate list (or its accumulator). -/
theorem foldl_pick_mem (cands : List (ℕ × Bool × ℤ)) :
    ∀ (acc : Option (ℕ × Bool × ℤ)) (c : ℕ × Bool × ℤ),
      (cands.foldl
        (fun best cand =>
          match best with
          | none => some cand
          | some b => if cand.2.2 < b.2.2 then some cand else some b)
        acc) = some c →
      c ∈ cands ∨ acc = some c := by
  induction cands with
  | nil => exact fun acc c h => Or.inr h
  | cons a l ih =>
    intro acc c h
    rw [List.foldl_cons] at h
    rcases ih _ c h with h1 | h1
    · exact Or.inl (List.mem_cons_of_mem a h1)
    · cases acc with
      | none =>
        simp only [Option.some.injEq] at h1
        exact Or.inl (h1 ▸ List.mem_cons_self a l)
      | some b =>
        by_cases hlt : a.2.2 < b.2.2
        · simp only [hlt, if_true] at h1
          simp only [Option.some.injEq] at h1
          exact Or.inl (h1 ▸ List.mem_cons_self a l)
        · simp only [hlt, if_false] at h1
          exact Or.inr h1

/-- `pickNearest` returns one of its candidates. -/
theorem pickNearest_mem (cands : List (ℕ × Bool × ℤ)) (c : ℕ × Bool × ℤ)
    (h : pickNearest cands = some c) : c ∈ cands := by
  rcases foldl_pick_mem cands none c h with h1 | h1
  · exact h1
  · cases h1

/-- Every candidate produced by the (spec-modelled) spatial lookup is an
unprocessed line index in range. -/
theorem nearestCandidates_mem (lines : List ELine) (processed : List ℕ) (pos : Pt)
    (stitch_distance : ℤ) (c : ℕ × Bool × ℤ)
    (h : c ∈ nearestCandidates lines processed pos stitch_distance) :
    c.1 < lines.length ∧ c.1 ∉ processed := by
  unfold nearestCandidates at h
  rcases List.mem_append.mp h with h1 | h1 <;>
  · rcases List.mem_filterMap.mp h1 with ⟨i, hi, hif⟩
    split at hif
    · next hcond =>
      cases hif
      exact ⟨List.mem_range.mp hi, hcond.1⟩
    · cases hif

/-- The chain step always returns an unprocessed line index in range. -/
theorem selectNearest_spec (lines : List ELine) (processed : List ℕ) (pos : Pt)
    (stitch_distance : ℤ) (j : ℕ) (r : Bool)
    (h : selectNearest lines processed pos stitch_distance = some (j, r)) :
    j < lines.length ∧ j ∉ processed := by
  unfold selectNearest at h
  cases hp : pickNearest (nearestCandidates lines processed pos stitch_distance) with
  | none => rw [hp] at h; cases h
  | some c =>
    rw [hp] at h
    have h2 : (c.1, c.2.1) = (j, r) := Option.some.inj h
    have hm := nearestCandidates_mem lines processed pos stitch_distance c
      (pickNearest_mem _ _ hp)
    rw [(Prod.mk.injEq _ _ _ _).mp h2 |>.1] at hm
    exact hm

/-- Invariants of the inner chaining loop: the returned processed list is the
chain's indices (reversed) on top of the incoming one; the chain's indices are
distinct, in range, fresh with respect to the incoming processed list, and
contain the seed. -/
theorem buildChain_spec (lines : List ELine) (stitch_distance : ℤ) (fuel : ℕ) :
    ∀ (processed : List ℕ) (i : ℕ) (rev : Bool), i < lines.length → i ∉ processed →
      ((buildChain lines stitch_distance fuel processed i rev).2
          = ((buildChain lines stitch_distance fuel processed i rev).1.map Prod.fst).reverse
            ++ processed)
      ∧ ((buildChain lines stitch_distance fuel processed i rev).1.map Prod.fst).Nodup
      ∧ (∀ x ∈ (buildChain lines stitch_distance fuel processed i rev).1.map Prod.fst,
          x < lines.length ∧ x ∉ processed)
      ∧ i ∈ (buildChain lines stitch_distance fuel processed i rev).1.map Prod.fst := by
  induction fuel with
  | zero =>
    intro processed i rev hi hip
    refine ⟨rfl, List.nodup_singleton i, ?_, List.mem_singleton_self i⟩
    intro x hx
    rw [List.mem_singleton.mp hx]
    exact ⟨hi, hip⟩
  | succ fuel ih =>
    intro processed i rev hi hip
    show _ ∧ _
    rw [buildChain]
    cases hsel : selectNearest lines (i :: processed) (endPt (lines.getD i []))
        stitch_distance with
    | none =>
      refine ⟨rfl, List.nodup_singleton i, ?_, List.mem_singleton_self i⟩
      intro x hx
      rw [List.mem_singleton.mp hx]
      exact ⟨hi, hip⟩
    | some jr =>
      obtain ⟨j, r⟩ := jr
      obtain ⟨hj1, hj2⟩ := selectNearest_spec lines (i :: processed)
        (endPt (lines.getD i [])) stitch_distance j r hsel
      obtain ⟨hrec1, hrec2, hrec3, hrec4⟩ := ih (i :: processed) j r hj1 hj2
      simp only [List.map_cons]
      refine ⟨?_, ?_, ?_, List.mem_cons_self _ _⟩
      · rw [hrec1, List.reverse_cons, List.append_assoc]
        rfl
      · refine List.nodup_cons.mpr ⟨?_, hrec2⟩
        intro hmem
        exact (hrec3 i hmem).2 (List.mem_cons_self i processed)
      · intro x hx
        rcases List.mem_cons.mp hx with hx | hx
        · rw [hx]; exact ⟨hi, hip⟩
        · obtain ⟨hxa, hxb⟩ := hrec3 x hx
          exact ⟨hxa, fun hc => hxb (List.mem_cons_of_mem i hc)⟩

/-- Invariants of the outer loop of the stitcher: across all emitted chains
the line indices are distinct, in range, fresh, and cover every index still to
be visited that is not already processed. -/
theorem stitchChainsGo_spec (lines : List ELine) (stitch_distance : ℤ) :
    ∀ (l : List ℕ) (processed : List ℕ), (∀ x ∈ l, x < lines.length) →
      (((stitchChainsGo lines stitch_distance l processed).flatten.map Prod.fst).Nodup
      ∧ (∀ x ∈ (stitchChainsGo lines stitch_distance l processed).flatten.map Prod.fst,
          x < lines.length ∧ x ∉ processed)
      ∧ (∀ x ∈ l,
          x ∈ (stitchChainsGo lines stitch_distance l processed).flatten.map Prod.fst
          ∨ x ∈ processed)) := by
  intro l
  induction l with
  | nil =>
    intro processed _
    refine ⟨List.nodup_nil, ?_, ?_⟩ <;> intro x hx <;> cases hx
  | cons i rest ih =>
    intro processed hl
    by_cases hmem : i ∈ processed
    · rw [stitchChainsGo, if_pos hmem]
      obtain ⟨h1, h2, h3⟩ := ih processed (fun x hx => hl x (List.mem_cons_of_mem i hx))
      refine ⟨h1, h2, ?_⟩
      intro x hx
      rcases List.mem_cons.mp hx with hx | hx
      · exact Or.inr (hx ▸ hmem)
      · exact h3 x hx
    · rw [stitchChainsGo, if_neg hmem]
      obtain ⟨hb1, hb2, hb3, hb4⟩ := buildChain_spec lines stitch_distance lines.length
        processed i false (hl i (List.mem_cons_self i rest)) hmem
      obtain ⟨h1, h2, h3⟩ := ih
        (buildChain lines stitch_distance lines.length processed i false).2
        (fun x hx => hl x (List.mem_cons_of_mem i hx))
      simp only [List.flatten_cons, List.map_append]
      have hdisj : ∀ x,
          x ∈ (buildChain lines stitch_distance lines.length processed i false).1.map Prod.fst →
          x ∉ (stitchChainsGo lines stitch_distance rest
            (buildChain lines stitch_distance lines.length processed i false).2).flatten.map
              Prod.fst := by
        intro x hx hx2
        apply (h2 x hx2).2
        rw [hb1]
        exact List.mem_append.mpr (Or.inl (List.mem_reverse.mpr hx))
      refine ⟨List.Nodup.append hb2 h1 (List.disjoint_left.mpr hdisj), ?_, ?_⟩
      · intro x hx
        rcases List.mem_append.mp hx with hx | hx
        · exact hb3 x hx
        · obtain ⟨hxa, hxb⟩ := h2 x hx
          refine ⟨hxa, fun hc => hxb ?_⟩
          rw [hb1]
          exact List.mem_append.mpr (Or.inr hc)
      · intro x hx
        rcases List.mem_cons.mp hx with hx | hx
        · exact Or.inl (List.mem_append.mpr (Or.inl (hx ▸ hb4)))
        · rcases h3 x hx with hx2 | hx2
          · exact Or.inl (List.mem_append.mpr (Or.inr hx2))
          · rw [hb1] at hx2
            rcases List.mem_append.mp hx2 with hx3 | hx3
            · exact Or.inl (List.mem_append.mpr (Or.inl (List.mem_reverse.mp hx3)))
            · exact Or.inr hx3

/-- C5 amended: every input polyline of the stitcher — and hence each of its
junctions — is emitted into exactly one output polygon (the indices used
across all chains are a permutation of all input line indices), and each
output polygon is exactly the concatenation of the junction points of the
lines of its chain.  (The further part of the original claim, that no point
repeats inside one polygon away from the closing pair, is refuted by
`stitchContours_repeats_point`.) -/
theorem stitchContours_lines_once (input : VWPaths) (stitch_distance : ℤ) :
    ((stitchChains input.flatten stitch_distance).flatten.map Prod.fst).Perm
      (List.range input.flatten.length)
    ∧ stitchContours input stitch_distance =
        (stitchChains input.flatten stitch_distance).map
          (fun chain => (chain.map
            (fun c => pointsOfLine input.flatten c.1 c.2)).flatten) := by
  refine ⟨?_, rfl⟩
  obtain ⟨h1, h2, h3⟩ := stitchChainsGo_spec input.flatten stitch_distance
    (List.range input.flatten.length) [] (fun x hx => List.mem_range.mp hx)
  refine List.perm_of_nodup_nodup_toFinset_eq h1 (List.nodup_range _) ?_
  ext a
  simp only [List.mem_toFinset, List.mem_range]
  constructor
  · intro ha
    exact (h2 a ha).1
  · intro ha
    rcases h3 a (List.mem_range.mpr ha) with h | h
    · exact h
    · cases h

/-! ## Theorems for claim C2 -/

/-- C8: `ExtrusionMove::write` makes exactly one exporter call — a
`writeExtrusion` — when the containing move set is a `FeatureExtrusion`, and
makes no exporter call but logs the warning when it is not; being a total
function, it returns in both cases (no exception escapes). -/
theorem extrusionMove_write_spec (absolute_position : ℤ × ℤ × ℤ) (z : ℤ)
    (line_width_ratio : ℚ) (extruder_move_set : ExtruderMoveSet) :
    ((ExtrusionMove.write absolute_position z line_width_ratio extruder_move_set).1.length
        = if extruder_move_set.isFeatureExtrusion then 1 else 0)
    ∧ (∀ c ∈ (ExtrusionMove.write absolute_position z line_width_ratio extruder_move_set).1,
        c.isWriteExtrusion = true)
    ∧ (extruder_move_set.isFeatureExtrusion = false →
        (ExtrusionMove.write absolute_position z line_width_ratio extruder_move_set).2
          = ["Unable to export extrusion move because it is not part of a FeatureExtrusion"])
    ∧ (extruder_move_set.isFeatureExtrusion = true →
        (ExtrusionMove.write absolute_position z line_width_ratio extruder_move_set).2 = []) := by
  cases extruder_move_set <;>
    simp [ExtrusionMove.write, ExtruderMoveSet.isFeatureExtrusion,
      ExporterCall.isWriteExtrusion]

/-- C8 witness: writing with a non-`FeatureExtrusion` move set makes no
exporter call and logs the warning. -/
theorem extrusionMove_write_spec_witness :
    (ExtrusionMove.write (0, 0, 0) 0 1 ExtruderMoveSet.otherMoveSet).1.length = 0
    ∧ (ExtrusionMove.write (0, 0, 0) 0 1 ExtruderMoveSet.otherMoveSet).2
        = ["Unable to export extrusion move because it is not part of a FeatureExtrusion"] :=
  ⟨(extrusionMove_write_spec (0, 0, 0) 0 1 ExtruderMoveSet.otherMoveSet).1,
   (extrusionMove_write_spec (0, 0, 0) 0 1 ExtruderMoveSet.otherMoveSet).2.2.1 rfl⟩

/-- C5 counterexample: two zero-width polylines that share the exact endpoint
`(100, 0)` are stitched into one polygon in which `(100, 0)` is emitted twice
at interior positions — refuting "no point is emitted twice along a single
output polygon except where the loop closes". -/
theorem stitchContours_repeats_point :
    stitchContours [[[⟨(0, 0), 0⟩, ⟨(100, 0), 0⟩], [⟨(100, 0), 0⟩, ⟨(100, 100), 0⟩]]] 200
      = [[(0, 0), (100, 0), (100, 0), (100, 100)]]
    ∧ ¬ noRepeatExceptClose [(0, 0), (100, 0), (100, 0), (100, 100)] := by
  constructor
  · decide
  · decide

end CuraSpec
